import Mathlib

/-!
Verification of the key-extraction and configuration-input logic of
`setup.py`.  Page text is modelled as `List Char`.  Python run-time values
produced by the extractor are modelled by the inductive type `Jv`; the
constructor `Jv.null` plays the role of Python's `None` (covering both the
explicit `return None` paths and a `dict.get` miss, which are the same
value in Python).  The two regular expressions of the source are compiled
by hand into deterministic scanners: `reSearchLit` embeds the search for
the pattern consisting of the quoted key name, optional whitespace, a
colon, optional whitespace and a quoted non-empty run of non-quote
characters, and `reSearchYtcfg` embeds the DOTALL search for the call-like
pattern around a brace-delimited span with a lazy body followed by a
closing parenthesis and a semicolon.  `json.loads` is embedded as a
fuel-indexed recursive-descent routine `jsonLoads` following Python's
`json` package: strict strings with escape sequences including \uXXXX and
surrogate pairs, objects with string keys and last-wins duplicates, arrays,
the number grammar keeping the matched lexeme, and the NaN/Infinity
extensions.  The network boundary of `get_fresh_innertube_key` is
abstracted as a function from a URL to either a transport fault
(an exception inside the loop body) or a pair of status code and body
text; the probe loop additionally records the list of URLs attempted, in
order, mirroring the per-iteration request of the source loop.
-/

/-- Whitespace for Python's regular-expression class and for `str.strip` /
`str.isspace` (ASCII whitespace, the C1 separator controls and the Unicode
space characters). -/
def isPySpace (c : Char) : Bool :=
  c == ' ' || c == '\t' || c == '\n' || c == '\r' ||
  c == Char.ofNat 11 || c == Char.ofNat 12 ||
  c == Char.ofNat 28 || c == Char.ofNat 29 || c == Char.ofNat 30 || c == Char.ofNat 31 ||
  c == Char.ofNat 0x85 || c == Char.ofNat 0xa0 || c == Char.ofNat 0x1680 ||
  (decide (Char.ofNat 0x2000 ≤ c) && decide (c ≤ Char.ofNat 0x200a)) ||
  c == Char.ofNat 0x2028 || c == Char.ofNat 0x2029 || c == Char.ofNat 0x202f ||
  c == Char.ofNat 0x205f || c == Char.ofNat 0x3000

/-- Opening curly brace character. -/
def lbrace : Char := Char.ofNat 123

/-- Closing curly brace character. -/
def rbrace : Char := Char.ofNat 125

/-- Removes `tok` from the front of `s`, if it is literally there
(the embedding of matching a literal, escaped fragment of a pattern). -/
def stripToken : List Char → List Char → Option (List Char)
  | [], s => some s
  | _ :: _, [] => none
  | c :: t, d :: s => if c = d then stripToken t s else none

/-- Value part of the literal pattern: a quote, a non-empty run of
non-quote characters (the capture), a closing quote.  The greedy run is
deterministic because it stops exactly at the next quote, which must then
be present. -/
def litAfterColon : List Char → Option (List Char)
  | '"' :: s5 =>
    if (s5.takeWhile (fun c => c != '"')).isEmpty then none
    else
      match s5.drop (s5.takeWhile (fun c => c != '"')).length with
      | '"' :: _ => some (s5.takeWhile (fun c => c != '"'))
      | _ => none
  | _ => none

/-- Part of the literal pattern after the quoted key: greedy whitespace, a
colon, greedy whitespace, then the quoted value. -/
def litAfterKey (s : List Char) : Option (List Char) :=
  match s.dropWhile isPySpace with
  | ':' :: s3 => litAfterColon (s3.dropWhile isPySpace)
  | _ => none

/-- Attempt of the literal pattern of `extract_string` at the current
position: the quoted key, then the colon and value parts.  The greedy
whitespace sub-matches are deterministic because a whitespace run cannot
end at a colon or a quote. -/
def matchKeyAt (key : List Char) (s : List Char) : Option (List Char) :=
  (stripToken ('"' :: (key ++ ['"'])) s).bind litAfterKey

/-- Leftmost search of the literal pattern: try every start position from
the left, as `re.search` does.  (The pattern cannot match the empty
suffix, so stopping at `[]` with `none` agrees with the engine's final
attempt at the end position.) -/
def reSearchLit (key : List Char) : List Char → Option (List Char)
  | [] => none
  | c :: rest =>
    match matchKeyAt key (c :: rest) with
    | some v => some v
    | none => reSearchLit key rest

/-- Embedding of `extract_string(key, text)` from `setup.py`. -/
def extract_string (key : List Char) (text : List Char) : Option (List Char) :=
  reSearchLit key text

/-- Checks the part of the call-like pattern after the captured group:
greedy whitespace, a closing parenthesis, greedy whitespace, a semicolon.
Content after the semicolon is unconstrained (the search is unanchored). -/
def tailOk (t : List Char) : Bool :=
  match t.dropWhile isPySpace with
  | c :: u =>
    if c = ')' then
      match u.dropWhile isPySpace with
      | d :: _ => decide (d = ';')
      | [] => false
    else false
  | [] => false

/-- Lazy scan for the body of the captured group: the shortest non-empty
DOTALL run of characters followed by a closing brace whose tail matches,
returning the whole captured group including both braces.  A closing brace
whose tail does not match is absorbed into the body and the scan goes on,
exactly as the backtracking engine extends a lazy quantifier. -/
def lazyScan (racc : List Char) : List Char → Option (List Char)
  | [] => none
  | c :: rest =>
    if c = rbrace ∧ racc ≠ [] ∧ tailOk rest = true then
      some (lbrace :: (racc.reverse ++ [rbrace]))
    else lazyScan (c :: racc) rest

/-- Attempt of the call-like pattern at the current position: the literal
call head, greedy whitespace, an opening brace, then the lazy body. -/
def matchYtcfgAt (s : List Char) : Option (List Char) :=
  match stripToken "ytcfg.set(".data s with
  | none => none
  | some s1 =>
    match s1.dropWhile isPySpace with
    | c :: s2 => if c = lbrace then lazyScan [] s2 else none
    | [] => none

/-- Leftmost search for the call-like embedded-object pattern. -/
def reSearchYtcfg : List Char → Option (List Char)
  | [] => none
  | c :: rest =>
    match matchYtcfgAt (c :: rest) with
    | some g => some g
    | none => reSearchYtcfg rest

/-- Model of the Python values the extractor can produce or embed in a
parsed JSON document.  `Jv.null` is Python's `None`; numbers keep their
matched lexeme (no claim in scope depends on numeric value arithmetic). -/
inductive Jv where
  | null : Jv
  | bool : Bool → Jv
  | num : List Char → Jv
  | str : List Char → Jv
  | arr : List Jv → Jv
  | obj : List (List Char × Jv) → Jv

/-- JSON whitespace as skipped by Python's `json` decoder. -/
def isJsonWs (c : Char) : Bool := c == ' ' || c == '\t' || c == '\n' || c == '\r'

/-- Skips JSON whitespace. -/
def skipJsonWs (s : List Char) : List Char := s.dropWhile isJsonWs

/-- Value of a hexadecimal digit. -/
def hexVal (c : Char) : Option Nat :=
  if '0' ≤ c ∧ c ≤ '9' then some (c.toNat - 48)
  else if 'a' ≤ c ∧ c ≤ 'f' then some (c.toNat - 87)
  else if 'A' ≤ c ∧ c ≤ 'F' then some (c.toNat - 70)
  else none

/-- Single-character JSON escape sequences accepted by the strict
decoder. -/
def escChar (e : Char) : Option Char :=
  if e = '"' then some '"'
  else if e = '\\' then some '\\'
  else if e = '/' then some '/'
  else if e = 'b' then some (Char.ofNat 8)
  else if e = 'f' then some (Char.ofNat 12)
  else if e = 'n' then some '\n'
  else if e = 'r' then some (Char.ofNat 13)
  else if e = 't' then some '\t'
  else none

/-- Body of a JSON string after its opening quote, strict mode: raw
control characters are rejected, escape sequences are decoded, \uXXXX
pairs of surrogates are combined.  (A lone surrogate, which Python would
keep as an unpaired code unit, has no `Char` representation and makes the
parse fail here; no input in scope contains one.) -/
def parseStringBody : List Char → List Char → Option (List Char × List Char)
  | _, [] => none
  | racc, c :: rest =>
    if c = '"' then some (racc.reverse, rest)
    else if c = '\\' then
      match rest with
      | [] => none
      | e :: rest2 =>
        if e = 'u' then
          match rest2 with
          | a :: b :: c2 :: d :: rest3 =>
            match hexVal a, hexVal b, hexVal c2, hexVal d with
            | some ha, some hb, some hc, some hd =>
              let n := ((ha * 16 + hb) * 16 + hc) * 16 + hd
              if 0xd800 ≤ n ∧ n ≤ 0xdbff then
                match rest3 with
                | s1 :: s2 :: e1 :: e2 :: e3 :: e4 :: rest4 =>
                  if s1 = '\\' ∧ s2 = 'u' then
                    match hexVal e1, hexVal e2, hexVal e3, hexVal e4 with
                    | some m1, some m2, some m3, some m4 =>
                      let m := ((m1 * 16 + m2) * 16 + m3) * 16 + m4
                      if 0xdc00 ≤ m ∧ m ≤ 0xdfff then
                        parseStringBody
                          (Char.ofNat (0x10000 + (n - 0xd800) * 0x400 + (m - 0xdc00)) :: racc)
                          rest4
                      else none
                    | _, _, _, _ => none
                  else none
                | _ => none
              else if 0xdc00 ≤ n ∧ n ≤ 0xdfff then none
              else parseStringBody (Char.ofNat n :: racc) rest3
            | _, _, _, _ => none
          | _ => none
        else
          match escChar e with
          | some ch => parseStringBody (ch :: racc) rest2
          | none => none
    else if c.toNat < 32 then none
    else parseStringBody (c :: racc) rest

/-- Optional fraction part of the JSON number grammar: a dot followed by at
least one digit, otherwise nothing is consumed. -/
def parseFracPart (s : List Char) : List Char × List Char :=
  match s with
  | c :: rest =>
    if c = '.' then
      let ds := rest.takeWhile Char.isDigit
      if ds.isEmpty then ([], s) else (c :: ds, rest.dropWhile Char.isDigit)
    else ([], s)
  | [] => ([], s)

/-- Optional exponent part of the JSON number grammar: e or E, an optional
sign, at least one digit, otherwise nothing is consumed. -/
def parseExpPart (s : List Char) : List Char × List Char :=
  match s with
  | c :: rest =>
    if c = 'e' ∨ c = 'E' then
      let (sg, r2) :=
        match rest with
        | d :: r => if d = '+' ∨ d = '-' then ([d], r) else (([] : List Char), rest)
        | [] => ([], rest)
      let ds := r2.takeWhile Char.isDigit
      if ds.isEmpty then ([], s) else (c :: (sg ++ ds), r2.dropWhile Char.isDigit)
    else ([], s)
  | [] => ([], s)

/-- JSON number at the current position, keeping the matched lexeme: an
optional minus, an integer part that is 0 or starts with a non-zero digit,
then the optional fraction and exponent parts. -/
def parseNumber (s : List Char) : Option (Jv × List Char) :=
  let (sign, s1) :=
    match s with
    | c :: rest => if c = '-' then ([c], rest) else (([] : List Char), s)
    | [] => (([] : List Char), s)
  match s1 with
  | c :: rest =>
    if c = '0' then
      let (fr, r2) := parseFracPart rest
      let (ex, r3) := parseExpPart r2
      some (Jv.num (sign ++ [c] ++ fr ++ ex), r3)
    else if c.isDigit then
      let ds := rest.takeWhile Char.isDigit
      let r1 := rest.dropWhile Char.isDigit
      let (fr, r2) := parseFracPart r1
      let (ex, r3) := parseExpPart r2
      some (Jv.num (sign ++ (c :: ds) ++ fr ++ ex), r3)
    else none
  | [] => none

/-- Insertion into the model of a Python dict: a duplicate key replaces the
stored value in place, a new key is appended, preserving insertion order. -/
def dictSet : List (List Char × Jv) → List Char → Jv → List (List Char × Jv)
  | [], k, v => [(k, v)]
  | (k1, v1) :: rest, k, v =>
    if k1 = k then (k, v) :: rest else (k1, v1) :: dictSet rest k v

/-- Embedding of `dict.get(key)` with its default of `None`. -/
def dictGet : List (List Char × Jv) → List Char → Jv
  | [], _ => Jv.null
  | (k1, v) :: rest, key => if k1 = key then v else dictGet rest key

/-- The three interleaved parsing routines of the JSON decoder — value,
object members, array items — built by plain recursion on a fuel bound so
that every recursive call is a structural descent on the fuel.  Each call
edge follows consumption of input, so the fuel passed by `jsonLoads` is
never exhausted on its argument. -/
def jparsers (fuel : Nat) :
    (List Char → Option (Jv × List Char)) ×
    (List (List Char × Jv) → List Char → Option (List (List Char × Jv) × List Char)) ×
    (List Jv → List Char → Option (List Jv × List Char)) :=
  match fuel with
  | 0 => (fun _ => none, fun _ _ => none, fun _ _ => none)
  | Nat.succ f =>
    let pv := (jparsers f).1
    let pm := (jparsers f).2.1
    let pit := (jparsers f).2.2
    ( fun s =>
        match s with
        | [] => none
        | c :: rest =>
          if c = '"' then
            match parseStringBody [] rest with
            | some (t, r) => some (Jv.str t, r)
            | none => none
          else if c = lbrace then
            match skipJsonWs rest with
            | [] => none
            | d :: r2 =>
              if d = rbrace then some (Jv.obj [], r2)
              else if d = '"' then
                match pm [] (d :: r2) with
                | some (kvs, r) => some (Jv.obj kvs, r)
                | none => none
              else none
          else if c = '[' then
            match skipJsonWs rest with
            | [] => none
            | d :: r2 =>
              if d = ']' then some (Jv.arr [], r2)
              else
                match pit [] (d :: r2) with
                | some (xs, r) => some (Jv.arr xs, r)
                | none => none
          else
            match stripToken "null".data s with
            | some r => some (Jv.null, r)
            | none =>
              match stripToken "true".data s with
              | some r => some (Jv.bool true, r)
              | none =>
                match stripToken "false".data s with
                | some r => some (Jv.bool false, r)
                | none =>
                  match stripToken "NaN".data s with
                  | some r => some (Jv.num "NaN".data, r)
                  | none =>
                    match stripToken "Infinity".data s with
                    | some r => some (Jv.num "Infinity".data, r)
                    | none =>
                      match stripToken "-Infinity".data s with
                      | some r => some (Jv.num "-Infinity".data, r)
                      | none => parseNumber s
      , fun acc s =>
          match s with
          | c :: rest =>
            if c = '"' then
              match parseStringBody [] rest with
              | some (key, r1) =>
                match skipJsonWs r1 with
                | d :: r2 =>
                  if d = ':' then
                    match pv (skipJsonWs r2) with
                    | some (v, r3) =>
                      let acc2 := dictSet acc key v
                      match skipJsonWs r3 with
                      | t :: r4 =>
                        if t = rbrace then some (acc2, r4)
                        else if t = ',' then
                          match skipJsonWs r4 with
                          | k :: r5 => if k = '"' then pm acc2 (k :: r5) else none
                          | [] => none
                        else none
                      | [] => none
                    | none => none
                  else none
                | [] => none
              | none => none
            else none
          | [] => none
      , fun acc s =>
          match pv s with
          | some (v, r1) =>
            match skipJsonWs r1 with
            | c :: r2 =>
              if c = ']' then some (acc ++ [v], r2)
              else if c = ',' then pit (acc ++ [v]) (skipJsonWs r2)
              else none
            | [] => none
          | none => none
      )

/-- JSON value at the current position, at the given fuel. -/
def parseValue (fuel : Nat) : List Char → Option (Jv × List Char) := (jparsers fuel).1

/-- Embedding of `json.loads`: skip leading whitespace, decode one value,
skip trailing whitespace, reject extra data.  A decode error is `none`
(the raised `JSONDecodeError` of the source).  Twice the length plus a
constant bounds the depth of parser call edges, since at most two edges
are crossed per character consumed. -/
def jsonLoads (s : List Char) : Option Jv :=
  match parseValue (2 * s.length + 4) (skipJsonWs s) with
  | some (v, rest) => if (skipJsonWs rest).isEmpty then some v else none
  | none => none

/-- Key name whose value `setup.py` extracts. -/
def INNERTUBE_API_KEY : List Char := "INNERTUBE_API_KEY".data

/-- Outcome of the try block of the fallback phase: look the key up when
the captured span parsed to a dict; a parse failure (and the impossible
non-dict result, whose attribute error the bare `except` would also
swallow) falls through to `None`. -/
def cfgResult : Option Jv → Jv
  | some (Jv.obj kvs) => dictGet kvs INNERTUBE_API_KEY
  | some _ => Jv.null
  | none => Jv.null

/-- Search-then-parse-then-look-up composition of the fallback phase. -/
def ytcfgLookup (html : List Char) : Jv :=
  match reSearchYtcfg html with
  | some g => cfgResult (jsonLoads g)
  | none => Jv.null

/-- Embedding of `extract_innertube_api_key(html)`: the literal pattern
first — a truthy (non-empty) capture is returned at once — otherwise the
embedded-object phase. -/
def extract_innertube_api_key (html : List Char) : Jv :=
  match extract_string INNERTUBE_API_KEY html with
  | some k => if k.isEmpty then ytcfgLookup html else Jv.str k
  | none => ytcfgLookup html

/-- Python truthiness of the modelled values, as tested by `if key:`.
(A float lexeme denoting a non-zero value that would underflow to 0.0 is
truthy here; no input in scope contains one.) -/
def numTruthy (lex : List Char) : Bool :=
  if lex = "NaN".data ∨ lex = "Infinity".data ∨ lex = "-Infinity".data then true
  else
    ((lex.dropWhile (fun c => c == '-')).takeWhile
        (fun c => c.isDigit || c == '.')).any
      (fun c => c.isDigit && c != '0')

/-- Truthiness of a modelled Python value. -/
def truthyJv : Jv → Bool
  | Jv.null => false
  | Jv.bool b => b
  | Jv.num lex => numTruthy lex
  | Jv.str s => !s.isEmpty
  | Jv.arr xs => !xs.isEmpty
  | Jv.obj kvs => !kvs.isEmpty

/-- First candidate source URL of `get_fresh_innertube_key`. -/
def urlTV : String := "https://www.youtube.com/tv"

/-- Second candidate source URL. -/
def urlRoot : String := "https://www.youtube.com/"

/-- Third candidate source URL. -/
def urlEmbed : String := "https://www.youtube.com/embed/"

/-- The fixed ordered list of candidate sources. -/
def urls_to_try : List String := [urlTV, urlRoot, urlEmbed]

/-- Network boundary: a URL either raises (transport fault, caught by the
loop body's handler) or yields a status code and a body text. -/
abbrev Fetcher := String → Except Unit (Nat × List Char)

/-- Probe loop of `get_fresh_innertube_key` over a list of sources,
additionally recording the URLs attempted (each loop iteration issues
exactly one request for its URL): a fault or a non-success status skips to
the next source, a success status runs the extractor and returns its
result when truthy, and exhaustion yields `None`. -/
def getFreshGo (fetch : Fetcher) : List String → Jv × List String
  | [] => (Jv.null, [])
  | u :: rest =>
    match fetch u with
    | Except.error _ => ((getFreshGo fetch rest).1, u :: (getFreshGo fetch rest).2)
    | Except.ok (st, body) =>
      if st ≠ 200 then ((getFreshGo fetch rest).1, u :: (getFreshGo fetch rest).2)
      else
        let key := extract_innertube_api_key body
        if truthyJv key then (key, [u])
        else ((getFreshGo fetch rest).1, u :: (getFreshGo fetch rest).2)

/-- Embedding of `get_fresh_innertube_key`, returning the extracted value
(`Jv.null` for the final `return None`). -/
def get_fresh_innertube_key (fetch : Fetcher) : Jv :=
  (getFreshGo fetch urls_to_try).1

/-- The URLs `get_fresh_innertube_key` attempts, in order. -/
def getFreshAttempts (fetch : Fetcher) : List String :=
  (getFreshGo fetch urls_to_try).2

/-- Embedding of `str.split(",")`: split at every comma, keeping empty
pieces. -/
def pySplit : List Char → List (List Char)
  | [] => [[]]
  | c :: rest =>
    let r := pySplit rest
    if c = ',' then [] :: r else (c :: r.headD []) :: r.tail

/-- Leading-whitespace removal. -/
def dropLeadWs (l : List Char) : List Char := l.dropWhile isPySpace

/-- Trailing-whitespace removal. -/
def dropTrailWs (l : List Char) : List Char := (l.reverse.dropWhile isPySpace).reverse

/-- Embedding of `str.strip()` with no arguments. -/
def pyStrip (l : List Char) : List Char := dropTrailWs (dropLeadWs l)

/-- Embedding of the key-assembly of `ask_for_api_keys` as a function of
the operator's raw input line: strip the line, return the empty list when
nothing remains, otherwise split at commas, strip each entry, keep the
truthy (non-empty) ones, and return the empty list when none remain. -/
def ask_for_api_keys (input : List Char) : List (List Char) :=
  let value := pyStrip input
  if value.isEmpty then []
  else
    let keys := ((pySplit value).map pyStrip).filter (fun k => !k.isEmpty)
    if keys.isEmpty then [] else keys

/-- Modelled from the spec: the assembled active-keys list splits its input
on commas, strips whitespace from each entry, and discards whitespace-only
and empty entries, preserving order.  Stated independently of the source's
strip-first phrasing, for the refinement claim about `ask_for_api_keys`. -/
def splitKeysSpec (l : List Char) : List (List Char) :=
  ((pySplit l).map pyStrip).filter (fun k => !k.isEmpty)

/-- A page text with one well-formed literal occurrence of the key and
arbitrary surrounding content. -/
def mkLitText (pre ws1 ws2 v post : List Char) : List Char :=
  pre ++ ('"' :: ((INNERTUBE_API_KEY ++ ['"']) ++
    (ws1 ++ (':' :: (ws2 ++ ('"' :: (v ++ ('"' :: post))))))))

/-- Checks that an extraction result is a string or the absence value. -/
def strOrNull : Jv → Bool
  | Jv.null => true
  | Jv.str _ => true
  | _ => false

/-- Checks that a probe result is a non-empty string key. -/
def nonemptyStrKey : Jv → Bool
  | Jv.str s => !s.isEmpty
  | _ => false

/-- One source fails: a transport fault or a non-success status. -/
def failsB (fetch : Fetcher) (u : String) : Bool :=
  match fetch u with
  | Except.error _ => true
  | Except.ok (st, _) => st != 200

/-- One source yields nothing: a fault, a non-success status, or an
extraction miss (falsy extraction result). -/
def missesB (fetch : Fetcher) (u : String) : Bool :=
  match fetch u with
  | Except.error _ => true
  | Except.ok (st, body) => st != 200 || !truthyJv (extract_innertube_api_key body)

/-- Page text whose embedded construct maps the key to the empty string. -/
def c1PageText : List Char :=
  "ytcfg.set(\x7b\"INNERTUBE_API_KEY\": \"\"\x7d);".data

/-- Page text with an embedded-object construct before a plain literal. -/
def c2PageText : List Char :=
  "ytcfg.set(\x7b\"OTHER\": 1\x7d); junk \"INNERTUBE_API_KEY\": \"direct\"".data

/-- Page text whose embedded construct maps the key to a number. -/
def c3PageText : List Char :=
  "ytcfg.set(\x7b\"INNERTUBE_API_KEY\": 7\x7d);".data

/-- Page text whose embedded construct is not valid JSON. -/
def c3BadJsonText : List Char := "ytcfg.set(\x7bnope\x7d);".data

/-- Page text with a multi-line embedded construct whose key is written
with an escape sequence, so that only the embedded phase can find it. -/
def c5PageText : List Char :=
  "pg ytcfg.set( \x7b\n\"INNERTUBE_API_KE\\u0059\":\n\"value\"\x7d ) ;".data

/-- Page text whose first construct is malformed and whose second is
valid and holds the key. -/
def c10PageText : List Char :=
  "ytcfg.set(\x7boops\x7d); ytcfg.set(\x7b\"INNERTUBE_API_KE\\u0059\": \"k\"\x7d);".data

/-- The second construct of `c10PageText` alone. -/
def c10SecondText : List Char :=
  "ytcfg.set(\x7b\"INNERTUBE_API_KE\\u0059\": \"k\"\x7d);".data

/-- Body holding a plain literal, used for the third source. -/
def c6Body : List Char := "\"INNERTUBE_API_KEY\": \"wkey\"".data

/-- Fetcher whose first source faults, whose second replies 404, and whose
third serves a matching literal. -/
def c6Fetch : Fetcher := fun u =>
  if u = urlTV then Except.error ()
  else if u = urlRoot then Except.ok (404, [])
  else Except.ok (200, c6Body)

/-- Fetcher on which every source faults. -/
def c7Fetch : Fetcher := fun _ => Except.error ()

/-- Fetcher whose first source serves a page mapping the key to a number;
the remaining sources fault. -/
def c9NumFetch : Fetcher := fun u =>
  if u = urlTV then
    Except.ok (200, "ytcfg.set(\x7b\"INNERTUBE_API_KEY\": 5\x7d);".data)
  else Except.error ()

/-- Fetcher whose first source serves a page mapping the key to the empty
string; the remaining sources fault. -/
def c9EmptyFetch : Fetcher := fun u =>
  if u = urlTV then Except.ok (200, c1PageText)
  else Except.error ()

/-- A token strips off the front of its own extension. -/
theorem stripToken_append (t r : List Char) : stripToken t (t ++ r) = some r := by
  induction t with
  | nil => rfl
  | cons c t ih => simp [stripToken, ih]

/-- A successful value part captures at least one character, because the
value class requires a non-empty run. -/
theorem litAfterColon_some_ne_nil {s v : List Char}
    (h : litAfterColon s = some v) : v ≠ [] := by
  unfold litAfterColon at h
  split at h
  · rename_i s5
    by_cases hemp : (s5.takeWhile (fun c => c != '"')).isEmpty = true
    · rw [if_pos hemp] at h
      exact absurd h (by simp)
    · rw [if_neg hemp] at h
      split at h
      · injection h with h
        subst h
        simpa [List.isEmpty_iff] using hemp
      · exact absurd h (by simp)
  · exact absurd h (by simp)

/-- A successful colon-and-value part captures at least one character. -/
theorem litAfterKey_some_ne_nil {s v : List Char}
    (h : litAfterKey s = some v) : v ≠ [] := by
  unfold litAfterKey at h
  split at h
  · exact litAfterColon_some_ne_nil h
  · exact absurd h (by simp)

/-- A successful literal-pattern attempt captures at least one
character. -/
theorem matchKeyAt_some_ne_nil {key s v : List Char}
    (h : matchKeyAt key s = some v) : v ≠ [] := by
  unfold matchKeyAt at h
  cases hst : stripToken ('"' :: (key ++ ['"'])) s with
  | none => rw [hst] at h; exact absurd h (by simp)
  | some s1 =>
    rw [hst] at h
    simp only [Option.some_bind] at h
    exact litAfterKey_some_ne_nil h

/-- A successful literal search captures at least one character. -/
theorem reSearchLit_some_ne_nil {key : List Char} :
    ∀ {s v : List Char}, reSearchLit key s = some v → v ≠ [] := by
  intro s
  induction s with
  | nil => intro v h; simp [reSearchLit] at h
  | cons c rest ih =>
    intro v h
    rw [reSearchLit] at h
    split at h
    · rename_i v1 heq
      injection h with h
      subst h
      exact matchKeyAt_some_ne_nil heq
    · exact ih h

/-- When the literal pattern matches anywhere in the page, the extractor
returns its capture as a string: the capture is non-empty, hence truthy,
and the embedded-object phase is never consulted. -/
theorem extract_eq_str_of_literal {html v : List Char}
    (h : extract_string INNERTUBE_API_KEY html = some v) :
    extract_innertube_api_key html = Jv.str v := by
  have hv : v ≠ [] := reSearchLit_some_ne_nil h
  unfold extract_innertube_api_key
  rw [h]
  simp [List.isEmpty_iff, hv]

/-- Dropping over an all-satisfying prefix continues in the remainder. -/
theorem dropWhile_append_of_all {p : Char → Bool} (w r : List Char)
    (hw : ∀ c ∈ w, p c = true) : (w ++ r).dropWhile p = r.dropWhile p := by
  induction w with
  | nil => rfl
  | cons c w ih =>
    have hc := hw c (by simp)
    simp only [List.cons_append, List.dropWhile_cons, hc, if_true]
    exact ih (fun x hx => hw x (by simp [hx]))

/-- Taking over an all-satisfying prefix stops exactly at the first
failing element. -/
theorem takeWhile_all_append_stop {q : Char → Bool} (v : List Char) (c : Char)
    (r : List Char) (hv : ∀ x ∈ v, q x = true) (hc : q c = false) :
    (v ++ c :: r).takeWhile q = v := by
  induction v with
  | nil => simp [List.takeWhile_cons, hc]
  | cons x v ih =>
    have hx := hv x (by simp)
    simp only [List.cons_append, List.takeWhile_cons, hx, if_true]
    rw [ih (fun y hy => hv y (by simp [hy]))]

/-- A failing token comparison makes the whole literal attempt fail. -/
theorem matchKeyAt_none_of_strip {key s : List Char}
    (h : stripToken ('"' :: (key ++ ['"'])) s = none) :
    matchKeyAt key s = none := by
  unfold matchKeyAt
  rw [h]
  rfl

/-- Search positions at which the token comparison fails are skipped. -/
theorem reSearchLit_skip {key : List Char} :
    ∀ (n : Nat) (s : List Char),
    (∀ i, i < n → matchKeyAt key (s.drop i) = none) →
    reSearchLit key s = reSearchLit key (s.drop n)
  | 0, s, _ => by simp
  | n+1, s, h => by
    cases s with
    | nil => simp
    | cons c rest =>
      have h0 : matchKeyAt key (c :: rest) = none := by
        simpa using h 0 (Nat.succ_pos n)
      rw [show reSearchLit key (c :: rest) = reSearchLit key rest by
        rw [reSearchLit]; rw [h0]]
      rw [List.drop_succ_cons]
      exact reSearchLit_skip n rest (fun i hi => by
        have hh := h (i+1) (by omega)
        simpa [List.drop_succ_cons] using hh)

/-- The value part succeeds on a well-formed quoted value, capturing
exactly the characters between the quotes. -/
theorem litAfterColon_build (v post : List Char)
    (hv : v ≠ []) (hq : ∀ x ∈ v, (x != '"') = true) :
    litAfterColon ('"' :: (v ++ ('"' :: post))) = some v := by
  have htake : (v ++ ('"' :: post)).takeWhile (fun c => c != '"') = v :=
    takeWhile_all_append_stop v '"' post hq (by rfl)
  have hemp : v.isEmpty = false := by
    cases v with
    | nil => exact absurd rfl hv
    | cons a l => rfl
  simp only [litAfterColon, htake, hemp, Bool.false_eq_true, if_false,
    List.drop_left]

/-- The colon-and-value part succeeds after the whitespace runs. -/
theorem litAfterKey_build (ws1 ws2 v post : List Char)
    (hv : v ≠ []) (hq : ∀ x ∈ v, (x != '"') = true)
    (h1 : ∀ c ∈ ws1, isPySpace c = true) (h2 : ∀ c ∈ ws2, isPySpace c = true) :
    litAfterKey (ws1 ++ (':' :: (ws2 ++ ('"' :: (v ++ ('"' :: post))))))
      = some v := by
  unfold litAfterKey
  rw [dropWhile_append_of_all ws1 _ h1]
  rw [List.dropWhile_cons]
  rw [show isPySpace ':' = false from rfl]
  simp only [Bool.false_eq_true, if_false]
  show litAfterColon ((ws2 ++ ('"' :: (v ++ ('"' :: post)))).dropWhile isPySpace)
      = some v
  rw [dropWhile_append_of_all ws2 _ h2]
  rw [List.dropWhile_cons]
  rw [show isPySpace '"' = false from rfl]
  simp only [Bool.false_eq_true, if_false]
  exact litAfterColon_build v post hv hq

/-- The literal attempt succeeds on a well-formed literal occurrence,
capturing exactly the value between the quotes. -/
theorem matchKeyAt_build (key ws1 ws2 v post : List Char)
    (hv : v ≠ []) (hq : ∀ x ∈ v, (x != '"') = true)
    (h1 : ∀ c ∈ ws1, isPySpace c = true) (h2 : ∀ c ∈ ws2, isPySpace c = true) :
    matchKeyAt key
      (('"' :: (key ++ ['"'])) ++
        (ws1 ++ (':' :: (ws2 ++ ('"' :: (v ++ ('"' :: post))))))) = some v := by
  unfold matchKeyAt
  rw [stripToken_append, Option.some_bind]
  exact litAfterKey_build ws1 ws2 v post hv hq h1 h2

/-- A failing source (fault or non-success status) is recorded and
skipped. -/
theorem getFreshGo_cons_fail {fetch : Fetcher} {u : String} {rest : List String}
    (h : failsB fetch u = true) :
    getFreshGo fetch (u :: rest) =
      ((getFreshGo fetch rest).1, u :: (getFreshGo fetch rest).2) := by
  unfold failsB at h
  cases hf : fetch u with
  | error e => simp only [getFreshGo, hf]
  | ok p =>
    obtain ⟨st, body⟩ := p
    rw [hf] at h
    have hne : st ≠ 200 := by simpa using h
    simp only [getFreshGo, hf]
    rw [if_pos hne]

/-- A success status with a truthy extraction returns at once, recording
only this source. -/
theorem getFreshGo_cons_hit {fetch : Fetcher} {u : String} {rest : List String}
    {body : List Char}
    (hf : fetch u = Except.ok (200, body))
    (ht : truthyJv (extract_innertube_api_key body) = true) :
    getFreshGo fetch (u :: rest) = (extract_innertube_api_key body, [u]) := by
  simp only [getFreshGo, hf]
  rw [if_neg (by simp : ¬ ((200 : Nat) ≠ 200))]
  simp [ht]

/-- A success status with a falsy extraction is recorded and skipped. -/
theorem getFreshGo_cons_miss {fetch : Fetcher} {u : String} {rest : List String}
    {body : List Char}
    (hf : fetch u = Except.ok (200, body))
    (ht : truthyJv (extract_innertube_api_key body) = false) :
    getFreshGo fetch (u :: rest) =
      ((getFreshGo fetch rest).1, u :: (getFreshGo fetch rest).2) := by
  simp only [getFreshGo, hf]
  rw [if_neg (by simp : ¬ ((200 : Nat) ≠ 200))]
  simp [ht]

/-- Any kind of per-source miss is recorded and skipped. -/
theorem getFreshGo_cons_of_miss {fetch : Fetcher} {u : String} {rest : List String}
    (h : missesB fetch u = true) :
    getFreshGo fetch (u :: rest) =
      ((getFreshGo fetch rest).1, u :: (getFreshGo fetch rest).2) := by
  unfold missesB at h
  cases hf : fetch u with
  | error e => exact getFreshGo_cons_fail (by unfold failsB; rw [hf])
  | ok p =>
    obtain ⟨st, body⟩ := p
    rw [hf] at h
    by_cases hst : st = 200
    · subst hst
      simp only [bne_self_eq_false, Bool.false_or, Bool.not_eq_true'] at h
      exact getFreshGo_cons_miss hf h
    · exact getFreshGo_cons_fail (by unfold failsB; rw [hf]; simpa using hst)

/-- A probe result is truthy or the absence value: a falsy extraction is
never returned, so a returned key always passes the truthiness test. -/
theorem getFreshGo_truthy_or_null (fetch : Fetcher) :
    ∀ urls : List String,
    truthyJv (getFreshGo fetch urls).1 = true ∨
      (getFreshGo fetch urls).1 = Jv.null := by
  intro urls
  induction urls with
  | nil => right; rfl
  | cons u rest ih =>
    cases hf : fetch u with
    | error e =>
      rw [getFreshGo_cons_fail (by unfold failsB; rw [hf])]
      simpa using ih
    | ok p =>
      obtain ⟨st, body⟩ := p
      by_cases hst : st = 200
      · subst hst
        by_cases ht : truthyJv (extract_innertube_api_key body) = true
        · rw [getFreshGo_cons_hit hf ht]
          left
          exact ht
        · simp only [Bool.not_eq_true] at ht
          rw [getFreshGo_cons_miss hf ht]
          simpa using ih
      · rw [getFreshGo_cons_fail (by unfold failsB; rw [hf]; simpa using hst)]
        simpa using ih

/-- The head of a non-empty source list is always attempted. -/
theorem getFreshGo_mem_head (fetch : Fetcher) (u : String) (rest : List String) :
    u ∈ (getFreshGo fetch (u :: rest)).2 := by
  cases hf : fetch u with
  | error e =>
    rw [getFreshGo_cons_fail (by unfold failsB; rw [hf])]
    simp
  | ok p =>
    obtain ⟨st, body⟩ := p
    by_cases hst : st = 200
    · subst hst
      by_cases ht : truthyJv (extract_innertube_api_key body) = true
      · rw [getFreshGo_cons_hit hf ht]
        simp
      · simp only [Bool.not_eq_true] at ht
        rw [getFreshGo_cons_miss hf ht]
        simp
    · rw [getFreshGo_cons_fail (by unfold failsB; rw [hf]; simpa using hst)]
      simp

/-- Splitting never produces an empty chunk list. -/
theorem pySplit_ne_nil (l : List Char) : pySplit l ≠ [] := by
  cases l with
  | nil => simp [pySplit]
  | cons c rest =>
    by_cases h : c = ','
    · simp [pySplit, h]
    · simp [pySplit, h]

/-- Stripping absorbs a leading whitespace character. -/
theorem pyStrip_ws_cons (c : Char) (h : isPySpace c = true) (l : List Char) :
    pyStrip (c :: l) = pyStrip l := by
  unfold pyStrip dropLeadWs
  rw [List.dropWhile_cons, h]
  simp

/-- A comma is not whitespace, so a whitespace character never splits. -/
theorem ws_ne_comma {c : Char} (h : isPySpace c = true) : c ≠ ',' := by
  intro hcon
  subst hcon
  exact absurd h (by decide)

/-- The key chunks are unchanged by a leading whitespace character. -/
theorem splitKeysSpec_ws_cons (c : Char) (h : isPySpace c = true) (l : List Char) :
    splitKeysSpec (c :: l) = splitKeysSpec l := by
  obtain ⟨r0, rs, hr⟩ : ∃ r0 rs, pySplit l = r0 :: rs := by
    cases hsp : pySplit l with
    | nil => exact absurd hsp (pySplit_ne_nil l)
    | cons a b => exact ⟨a, b, rfl⟩
  unfold splitKeysSpec
  rw [show pySplit (c :: l) = (c :: r0) :: rs from by
    simp [pySplit, ws_ne_comma h, hr]]
  rw [hr]
  simp only [List.map_cons]
  rw [pyStrip_ws_cons c h r0]

/-- The key chunks are unchanged by a whole run of leading whitespace. -/
theorem splitKeysSpec_ws_lead (w l : List Char)
    (hw : ∀ c ∈ w, isPySpace c = true) :
    splitKeysSpec (w ++ l) = splitKeysSpec l := by
  induction w with
  | nil => rfl
  | cons c w ih =>
    rw [List.cons_append, splitKeysSpec_ws_cons c (hw c (by simp)) _]
    exact ih (fun x hx => hw x (by simp [hx]))

/-- Appends a run to the last chunk of a chunk list. -/
def appendLast : List (List Char) → List Char → List (List Char)
  | [], w => [w]
  | [h0], w => [h0 ++ w]
  | h0 :: h1 :: t, w => h0 :: appendLast (h1 :: t) w

/-- A comma-free run splits into a single chunk. -/
theorem pySplit_no_comma (w : List Char) (hw : ∀ c ∈ w, c ≠ ',') :
    pySplit w = [w] := by
  induction w with
  | nil => rfl
  | cons c rest ih =>
    have hr := ih (fun x hx => hw x (by simp [hx]))
    simp [pySplit, hw c (by simp), hr]

/-- Appending a comma-free run extends the last chunk and nothing else. -/
theorem pySplit_append_no_comma (t w : List Char) (hw : ∀ c ∈ w, c ≠ ',') :
    pySplit (t ++ w) = appendLast (pySplit t) w := by
  induction t with
  | nil => simp [pySplit_no_comma w hw, pySplit, appendLast]
  | cons c t ih =>
    obtain ⟨r0, rs, hr⟩ : ∃ r0 rs, pySplit t = r0 :: rs := by
      cases hsp : pySplit t with
      | nil => exact absurd hsp (pySplit_ne_nil t)
      | cons a b => exact ⟨a, b, rfl⟩
    by_cases hc : c = ','
    · rw [List.cons_append]
      rw [show pySplit (c :: (t ++ w)) = [] :: pySplit (t ++ w) from by
        simp [pySplit, hc]]
      rw [ih, hr]
      rw [show pySplit (c :: t) = [] :: pySplit t from by simp [pySplit, hc]]
      rw [hr]
      rfl
    · rw [List.cons_append]
      obtain ⟨q0, qs, hq2⟩ : ∃ q0 qs, pySplit (t ++ w) = q0 :: qs := by
        cases hsp : pySplit (t ++ w) with
        | nil => exact absurd hsp (pySplit_ne_nil (t ++ w))
        | cons a b => exact ⟨a, b, rfl⟩
      rw [show pySplit (c :: (t ++ w)) = (c :: q0) :: qs from by
        simp [pySplit, hc, hq2]]
      rw [show pySplit (c :: t) = (c :: r0) :: rs from by simp [pySplit, hc, hr]]
      rw [hq2] at ih
      rw [hr] at ih
      cases rs with
      | nil =>
        rw [show appendLast [r0] w = [r0 ++ w] from rfl] at ih
        injection ih with ih1 ih2
        subst ih1
        subst ih2
        rfl
      | cons r1 rs2 =>
        rw [show appendLast (r0 :: r1 :: rs2) w = r0 :: appendLast (r1 :: rs2) w
          from rfl] at ih
        injection ih with ih1 ih2
        subst ih1
        subst ih2
        rfl

/-- Trailing whitespace does not change the trailing-strip result. -/
theorem dropTrailWs_append_ws (l w : List Char)
    (hw : ∀ c ∈ w, isPySpace c = true) :
    dropTrailWs (l ++ w) = dropTrailWs l := by
  unfold dropTrailWs
  rw [List.reverse_append]
  rw [dropWhile_append_of_all w.reverse _
    (fun c hc => hw c (List.mem_reverse.mp hc))]

/-- Dropping over a prefix holding a failing element splits at the
append. -/
theorem dropWhile_append_of_not_all {p : Char → Bool} (l r : List Char)
    (h : ¬ ∀ c ∈ l, p c = true) :
    (l ++ r).dropWhile p = l.dropWhile p ++ r := by
  induction l with
  | nil => exact absurd (by simp) h
  | cons c l ih =>
    by_cases hc : p c = true
    · have hl : ¬ ∀ x ∈ l, p x = true := by
        intro hcon
        exact h (fun x hx => by
          rcases List.mem_cons.mp hx with h1 | h2
          · subst h1; exact hc
          · exact hcon x h2)
      rw [List.cons_append, List.dropWhile_cons, hc]
      rw [List.dropWhile_cons, hc]
      simpa using ih hl
    · rw [List.cons_append, List.dropWhile_cons]
      rw [List.dropWhile_cons]
      simp only [Bool.not_eq_true] at hc
      rw [hc]
      simp

/-- Trailing whitespace does not change the full strip result. -/
theorem pyStrip_append_ws (l w : List Char)
    (hw : ∀ c ∈ w, isPySpace c = true) :
    pyStrip (l ++ w) = pyStrip l := by
  unfold pyStrip dropLeadWs
  by_cases hall : ∀ c ∈ l, isPySpace c = true
  · rw [dropWhile_append_of_all l _ hall]
    rw [List.dropWhile_eq_nil_iff.mpr hall]
    rw [show w.dropWhile isPySpace = [] from List.dropWhile_eq_nil_iff.mpr hw]
  · rw [dropWhile_append_of_not_all l w hall]
    exact dropTrailWs_append_ws _ w hw

/-- Mapping the strip over chunks ignores a whitespace run appended to
the last chunk. -/
theorem map_pyStrip_appendLast (r : List (List Char)) (hr : r ≠ [])
    (w : List Char) (hw : ∀ c ∈ w, isPySpace c = true) :
    (appendLast r w).map pyStrip = r.map pyStrip := by
  induction r with
  | nil => exact absurd rfl hr
  | cons h0 t ih =>
    cases t with
    | nil => simp [appendLast, pyStrip_append_ws h0 w hw]
    | cons h1 t2 =>
      rw [show appendLast (h0 :: h1 :: t2) w = h0 :: appendLast (h1 :: t2) w
        from rfl]
      simp only [List.map_cons]
      rw [ih (by simp)]
      rfl

/-- The key chunks are unchanged by a run of trailing whitespace. -/
theorem splitKeysSpec_ws_suffix (l w : List Char)
    (hw : ∀ c ∈ w, isPySpace c = true) :
    splitKeysSpec (l ++ w) = splitKeysSpec l := by
  have hcw : ∀ c ∈ w, c ≠ ',' := fun c hc => ws_ne_comma (hw c hc)
  unfold splitKeysSpec
  rw [pySplit_append_no_comma l w hcw]
  rw [map_pyStrip_appendLast (pySplit l) (pySplit_ne_nil l) w hw]

/-- A list splits into its trailing-strip and its trailing whitespace. -/
theorem dropTrailWs_decomp (x : List Char) :
    x = dropTrailWs x ++ (x.reverse.takeWhile isPySpace).reverse := by
  unfold dropTrailWs
  rw [← List.reverse_append]
  rw [List.takeWhile_append_dropWhile]
  rw [List.reverse_reverse]

/-- Stripping the whole input first does not change the key chunks. -/
theorem splitKeysSpec_pyStrip (l : List Char) :
    splitKeysSpec (pyStrip l) = splitKeysSpec l := by
  conv_rhs => rw [← List.takeWhile_append_dropWhile isPySpace l]
  rw [splitKeysSpec_ws_lead (l.takeWhile isPySpace) (l.dropWhile isPySpace)
    (fun c hc => List.mem_takeWhile_imp hc)]
  conv_rhs => rw [dropTrailWs_decomp (l.dropWhile isPySpace)]
  rw [splitKeysSpec_ws_suffix _ _
    (fun c hc => List.mem_takeWhile_imp (List.mem_reverse.mp hc))]
  rfl

/-- C1 counterexample: on a page whose embedded construct maps the key to
the empty JSON string, the extractor returns the empty string, refuting
the claim that it never returns an empty string. -/
theorem c1_counterexample_empty_string_returned :
    extract_innertube_api_key c1PageText = Jv.str [] := rfl

/-- C1 (amended): for every input page text the key extractor returns the
absence value, or the non-empty capture of the direct-literal pattern as a
string, or exactly the value mapped to the key by the parsed JSON object
of the first embedded-object construct — which may be the empty string or
a non-string value; it never returns a partially-parsed value. -/
theorem c1_amended_result_classification (html : List Char) :
    extract_innertube_api_key html = Jv.null ∨
    (∃ v, extract_string INNERTUBE_API_KEY html = some v ∧ v ≠ [] ∧
      extract_innertube_api_key html = Jv.str v) ∨
    (∃ g kvs, reSearchYtcfg html = some g ∧ jsonLoads g = some (Jv.obj kvs) ∧
      extract_innertube_api_key html = dictGet kvs INNERTUBE_API_KEY) := by
  cases hlit : extract_string INNERTUBE_API_KEY html with
  | some v =>
    exact Or.inr (Or.inl ⟨v, rfl, reSearchLit_some_ne_nil hlit,
      extract_eq_str_of_literal hlit⟩)
  | none =>
    have hx : extract_innertube_api_key html = ytcfgLookup html := by
      unfold extract_innertube_api_key
      rw [hlit]
    cases hfind : reSearchYtcfg html with
    | none =>
      left
      rw [hx]
      unfold ytcfgLookup
      rw [hfind]
    | some g =>
      have hy : ytcfgLookup html = cfgResult (jsonLoads g) := by
        unfold ytcfgLookup
        rw [hfind]
      cases hload : jsonLoads g with
      | none => left; rw [hx, hy, hload]; rfl
      | some jv =>
        cases jv with
        | obj kvs =>
          exact Or.inr (Or.inr ⟨g, kvs, rfl, hload, by rw [hx, hy, hload]; rfl⟩)
        | null => left; rw [hx, hy, hload]; rfl
        | bool b => left; rw [hx, hy, hload]; rfl
        | num lx => left; rw [hx, hy, hload]; rfl
        | str s => left; rw [hx, hy, hload]; rfl
        | arr xs => left; rw [hx, hy, hload]; rfl

/-- C2: whenever the direct-literal pattern matches anywhere in the text —
in particular when an embedded-object construct is also present and occurs
earlier — the extractor returns the literal capture: the plain-literal
phase takes unconditional precedence and the embedded phase is never
consulted. -/
theorem c2_plain_literal_precedence (html v : List Char)
    (h : extract_string INNERTUBE_API_KEY html = some v) :
    extract_innertube_api_key html = Jv.str v :=
  extract_eq_str_of_literal h

/-- C2 witness: a page with an embedded-object construct first and the
plain literal later still yields the literal value. -/
theorem c2_plain_literal_precedence_witness :
    extract_innertube_api_key c2PageText = Jv.str "direct".data :=
  c2_plain_literal_precedence c2PageText "direct".data rfl

/-- C3 counterexample: on a page whose embedded construct maps the key to
a number, the extractor returns that number value, refuting the claim
that it always returns a string value or absent. -/
theorem c3_counterexample_nonstring_value_returned :
    strOrNull (extract_innertube_api_key c3PageText) = false := rfl

/-- C3 (amended): the extractor is total — the embedding returns a value
for every input, the JSON parse failure having been downgraded — and it
returns the absence value both when neither pattern matches and when the
captured span of the embedded construct fails to parse as JSON; the
returned value is a string on the literal path but can be any JSON value
on the embedded path. -/
theorem c3_amended_miss_and_parse_failure_absent (html : List Char)
    (hlit : extract_string INNERTUBE_API_KEY html = none)
    (hjson : Option.all (fun g => (jsonLoads g).isNone)
      (reSearchYtcfg html) = true) :
    extract_innertube_api_key html = Jv.null := by
  unfold extract_innertube_api_key
  rw [hlit]
  show ytcfgLookup html = Jv.null
  unfold ytcfgLookup
  cases hfind : reSearchYtcfg html with
  | none => rfl
  | some g =>
    rw [hfind] at hjson
    simp only [Option.all] at hjson
    show cfgResult (jsonLoads g) = Jv.null
    rw [Option.isNone_iff_eq_none.mp hjson]
    rfl

/-- C3 witness: a page whose construct is captured but not valid JSON
yields the absence value. -/
theorem c3_amended_miss_and_parse_failure_absent_witness :
    extract_innertube_api_key c3BadJsonText = Jv.null :=
  c3_amended_miss_and_parse_failure_absent c3BadJsonText rfl rfl

/-- C4: a text holding a well-formed direct literal of the key (whitespace
around the colon tolerated, value non-empty and quote-free), whose prefix
holds no earlier occurrence of the quoted key token and which holds no
embedded-object construct, extracts exactly that value regardless of the
surrounding content. -/
theorem c4_direct_literal_extracted (pre ws1 ws2 v post : List Char)
    (hv : v ≠ []) (hq : ∀ x ∈ v, (x != '"') = true)
    (h1 : ∀ c ∈ ws1, isPySpace c = true) (h2 : ∀ c ∈ ws2, isPySpace c = true)
    (hpre : ∀ i, i < pre.length →
      stripToken ('"' :: (INNERTUBE_API_KEY ++ ['"']))
        ((mkLitText pre ws1 ws2 v post).drop i) = none)
    (_hyt : reSearchYtcfg (mkLitText pre ws1 ws2 v post) = none) :
    extract_innertube_api_key (mkLitText pre ws1 ws2 v post) = Jv.str v := by
  apply extract_eq_str_of_literal
  show reSearchLit INNERTUBE_API_KEY (mkLitText pre ws1 ws2 v post) = some v
  rw [reSearchLit_skip pre.length (mkLitText pre ws1 ws2 v post)
    (fun i hi => matchKeyAt_none_of_strip (hpre i hi))]
  rw [show (mkLitText pre ws1 ws2 v post).drop pre.length =
      '"' :: ((INNERTUBE_API_KEY ++ ['"']) ++
        (ws1 ++ (':' :: (ws2 ++ ('"' :: (v ++ ('"' :: post))))))) from by
    unfold mkLitText
    exact List.drop_left _ _]
  have hb : matchKeyAt INNERTUBE_API_KEY
      ('"' :: ((INNERTUBE_API_KEY ++ ['"']) ++
        (ws1 ++ (':' :: (ws2 ++ ('"' :: (v ++ ('"' :: post)))))))) = some v :=
    matchKeyAt_build INNERTUBE_API_KEY ws1 ws2 v post hv hq h1 h2
  rw [reSearchLit]
  rw [hb]

/-- C4 witness: a concrete page around a concrete literal. -/
theorem c4_direct_literal_extracted_witness :
    extract_innertube_api_key
      (mkLitText "xy ".data " ".data "  ".data "KEYVAL".data " rest".data)
      = Jv.str "KEYVAL".data :=
  c4_direct_literal_extracted "xy ".data " ".data "  ".data "KEYVAL".data
    " rest".data (by decide) (by decide) (by decide) (by decide)
    (by decide) rfl

/-- C5: a text with no direct literal whose first embedded-object
construct captures a span parsing to a JSON object that maps the key to a
string value extracts exactly that value. -/
theorem c5_embedded_object_extracted (html g : List Char)
    (kvs : List (List Char × Jv)) (w : List Char)
    (hlit : extract_string INNERTUBE_API_KEY html = none)
    (hfind : reSearchYtcfg html = some g)
    (hload : jsonLoads g = some (Jv.obj kvs))
    (hget : dictGet kvs INNERTUBE_API_KEY = Jv.str w) :
    extract_innertube_api_key html = Jv.str w := by
  unfold extract_innertube_api_key
  rw [hlit]
  show ytcfgLookup html = Jv.str w
  unfold ytcfgLookup
  rw [hfind]
  show cfgResult (jsonLoads g) = Jv.str w
  rw [hload]
  exact hget

/-- C5 witness: a multi-line embedded construct whose key is written with
an escape sequence, so the literal phase cannot match. -/
theorem c5_embedded_object_extracted_witness :
    extract_innertube_api_key c5PageText = Jv.str "value".data :=
  c5_embedded_object_extracted c5PageText
    "\x7b\n\"INNERTUBE_API_KE\\u0059\":\n\"value\"\x7d".data
    [(INNERTUBE_API_KEY, Jv.str "value".data)] "value".data
    rfl rfl rfl rfl

/-- C6: when the first two sources fail (fault or non-success status) and
the third source replies with success and a body holding a matching
literal, the probe returns that literal value and attempts exactly the
three sources once each, in order — faults and non-success statuses are
treated alike and never abort the sequence. -/
theorem c6_third_source_fallback (fetch : Fetcher) (body v : List Char)
    (h1 : failsB fetch urlTV = true) (h2 : failsB fetch urlRoot = true)
    (h3 : fetch urlEmbed = Except.ok (200, body))
    (h4 : extract_string INNERTUBE_API_KEY body = some v) :
    get_fresh_innertube_key fetch = Jv.str v ∧
      getFreshAttempts fetch = [urlTV, urlRoot, urlEmbed] := by
  have he : extract_innertube_api_key body = Jv.str v :=
    extract_eq_str_of_literal h4
  have hne : v ≠ [] := reSearchLit_some_ne_nil h4
  have ht : truthyJv (extract_innertube_api_key body) = true := by
    rw [he]
    cases v with
    | nil => exact absurd rfl hne
    | cons a l => rfl
  have hgo : getFreshGo fetch urls_to_try =
      (Jv.str v, [urlTV, urlRoot, urlEmbed]) := by
    unfold urls_to_try
    rw [getFreshGo_cons_fail h1, getFreshGo_cons_fail h2,
      getFreshGo_cons_hit h3 ht, he]
  exact ⟨by unfold get_fresh_innertube_key; rw [hgo],
    by unfold getFreshAttempts; rw [hgo]⟩

/-- C6 witness: first source faults, second replies 404, third serves the
literal. -/
theorem c6_third_source_fallback_witness :
    get_fresh_innertube_key c6Fetch = Jv.str "wkey".data ∧
      getFreshAttempts c6Fetch = [urlTV, urlRoot, urlEmbed] :=
  c6_third_source_fallback c6Fetch c6Body "wkey".data rfl rfl rfl rfl

/-- C7: when every source misses (fault, non-success status, or falsy
extraction), the probe attempts all three sources exactly once each, in
the fixed order, and returns the absence value as a normal result. -/
theorem c7_exhaustion_in_order (fetch : Fetcher)
    (h1 : missesB fetch urlTV = true) (h2 : missesB fetch urlRoot = true)
    (h3 : missesB fetch urlEmbed = true) :
    get_fresh_innertube_key fetch = Jv.null ∧
      getFreshAttempts fetch = [urlTV, urlRoot, urlEmbed] := by
  have hgo : getFreshGo fetch urls_to_try =
      (Jv.null, [urlTV, urlRoot, urlEmbed]) := by
    unfold urls_to_try
    rw [getFreshGo_cons_of_miss h1, getFreshGo_cons_of_miss h2,
      getFreshGo_cons_of_miss h3]
    rfl
  exact ⟨by unfold get_fresh_innertube_key; rw [hgo],
    by unfold getFreshAttempts; rw [hgo]⟩

/-- C7 witness: every source faults. -/
theorem c7_exhaustion_in_order_witness :
    get_fresh_innertube_key c7Fetch = Jv.null ∧
      getFreshAttempts c7Fetch = [urlTV, urlRoot, urlEmbed] :=
  c7_exhaustion_in_order c7Fetch rfl rfl rfl

/-- C8: the assembled active-keys list for input "a, b ,,c" is exactly
["a","b","c"] in that order; and on every input line the assembly equals
the specification that splits on commas, strips whitespace from each
entry, discards empty and whitespace-only entries and preserves order —
the source's strip-the-whole-line-first step and its redundant final
emptiness check coincide with that specification. -/
theorem c8_key_list_assembly :
    ask_for_api_keys "a, b ,,c".data = ["a".data, "b".data, "c".data] ∧
    ∀ l : List Char, ask_for_api_keys l = splitKeysSpec l := by
  constructor
  · rfl
  · intro l
    unfold ask_for_api_keys
    show (if (pyStrip l).isEmpty = true then []
      else if (splitKeysSpec (pyStrip l)).isEmpty = true then []
      else splitKeysSpec (pyStrip l)) = splitKeysSpec l
    by_cases h : (pyStrip l).isEmpty = true
    · rw [if_pos h]
      rw [← splitKeysSpec_pyStrip l, List.isEmpty_iff.mp h]
      rfl
    · rw [if_neg h]
      by_cases hk : (splitKeysSpec (pyStrip l)).isEmpty = true
      · rw [if_pos hk]
        rw [← splitKeysSpec_pyStrip l]
        exact (List.isEmpty_iff.mp hk).symm
      · rw [if_neg hk]
        exact splitKeysSpec_pyStrip l

/-- C9 counterexample: a success response whose embedded construct maps
the key to the number 5 makes the probe return a truthy non-string value,
refuting the claim that every returned key is a non-empty string. -/
theorem c9_counterexample_nonstring_key_returned :
    get_fresh_innertube_key c9NumFetch = Jv.num ['5'] ∧
      nonemptyStrKey (get_fresh_innertube_key c9NumFetch) = false :=
  ⟨rfl, rfl⟩

/-- C9 (amended): a success response whose extraction yields the empty
string is treated as absent and the probe continues to the next source;
and the probe never returns a falsy value — in particular never the empty
string — though a truthy non-string JSON value would be returned as-is. -/
theorem c9_amended_empty_extraction_skipped :
    (∀ (fetch : Fetcher) (body : List Char),
      fetch urlTV = Except.ok (200, body) →
      extract_innertube_api_key body = Jv.str [] →
      urlRoot ∈ getFreshAttempts fetch) ∧
    (∀ fetch : Fetcher,
      truthyJv (get_fresh_innertube_key fetch) = true ∨
        get_fresh_innertube_key fetch = Jv.null) := by
  constructor
  · intro fetch body hf he
    unfold getFreshAttempts urls_to_try
    rw [getFreshGo_cons_miss hf (by rw [he]; rfl)]
    exact List.mem_cons_of_mem _ (getFreshGo_mem_head fetch urlRoot [urlEmbed])
  · intro fetch
    exact getFreshGo_truthy_or_null fetch urls_to_try

/-- C9 witness: an empty-string extraction on the first source leads to
the second source being attempted, and the probe result is classified. -/
theorem c9_amended_empty_extraction_skipped_witness :
    urlRoot ∈ getFreshAttempts c9EmptyFetch ∧
      (truthyJv (get_fresh_innertube_key c9EmptyFetch) = true ∨
        get_fresh_innertube_key c9EmptyFetch = Jv.null) :=
  ⟨c9_amended_empty_extraction_skipped.1 c9EmptyFetch c1PageText rfl rfl,
    c9_amended_empty_extraction_skipped.2 c9EmptyFetch⟩

/-- C10: only the first (leftmost) embedded-object construct is ever
considered — when its captured span fails to parse as JSON, the extractor
returns the absence value without attempting any later construct. -/
theorem c10_first_construct_only (html g : List Char)
    (hlit : extract_string INNERTUBE_API_KEY html = none)
    (hfind : reSearchYtcfg html = some g)
    (hbad : jsonLoads g = none) :
    extract_innertube_api_key html = Jv.null := by
  unfold extract_innertube_api_key
  rw [hlit]
  show ytcfgLookup html = Jv.null
  unfold ytcfgLookup
  rw [hfind]
  show cfgResult (jsonLoads g) = Jv.null
  rw [hbad]
  rfl

/-- C10 witness: the first construct's capture is malformed and the
extractor yields absence, even though the second construct alone would
yield the key. -/
theorem c10_first_construct_only_witness :
    extract_innertube_api_key c10PageText = Jv.null ∧
      extract_innertube_api_key c10SecondText = Jv.str ['k'] :=
  ⟨c10_first_construct_only c10PageText "\x7boops\x7d".data rfl rfl rfl, rfl⟩
